import Mathlib

/-!
A verification model of the query planner core described in spec.md, exercised
by src/src/mongo/dbtests/queryoptimizertests.cpp.  The production planner
sources (queryoptimizer.cpp / queryutil.cpp) are not part of the source tree,
so the planner operations are modelled from the specification, refined where
the unit tests in the tree pin down concrete behaviour.
-/

namespace QueryOptimizer

/-- Modelled from the spec: the ordered BSON value domain used for index keys
and range bounds ("the ordered value domain", spec section 3).  Composite
values (objects, arrays) are opaque to the planner; they are modelled with an
identifying tag, since the planner only inspects their type class. -/
inductive BVal where
  | minKey : BVal
  | nullV : BVal
  | num : Int → BVal
  | str : String → BVal
  | obj : Nat → BVal
  | arr : Nat → BVal
  | maxKey : BVal
deriving DecidableEq, Repr

/-- Canonical type-class rank, giving the cross-type BSON ordering
minKey < null < numbers < strings < objects < arrays < maxKey. -/
def BVal.rank : BVal → Nat
  | .minKey => 0
  | .nullV => 1
  | .num _ => 2
  | .str _ => 3
  | .obj _ => 4
  | .arr _ => 5
  | .maxKey => 6

/-- Total comparison on the value domain: first by type-class rank, then
within a class by the class's own order. -/
def BVal.cmp (a b : BVal) : Ordering :=
  match a, b with
  | .num m, .num n => if m < n then .lt else if m = n then .eq else .gt
  | .str s, .str t => if s < t then .lt else if s = t then .eq else .gt
  | .obj m, .obj n => if m < n then .lt else if m = n then .eq else .gt
  | .arr m, .arr n => if m < n then .lt else if m = n then .eq else .gt
  | a, b =>
    if a.rank < b.rank then .lt else if a.rank = b.rank then .eq else .gt

/-- Two values are compared inside the same type bracket: the matcher applies
inequality operators only between values of the same type class. -/
def BVal.sameClass (a b : BVal) : Bool := a.rank = b.rank

/-- Whether a value is a scalar string. -/
def BVal.isStr : BVal → Bool
  | .str _ => true
  | _ => false

/-- Modelled from the spec: leaf clause operators of the predicate language
(spec section 3, "Predicate"). -/
inductive PredOp where
  | eqOp : BVal → PredOp
  | ltOp : BVal → PredOp
  | lteOp : BVal → PredOp
  | gtOp : BVal → PredOp
  | gteOp : BVal → PredOp
  | neOp : BVal → PredOp
  | inOp : List BVal → PredOp
  | existsOp : Bool → PredOp
  | notExistsOp : Bool → PredOp
  | regexOp : String → PredOp
  | nearOp : PredOp
deriving DecidableEq, Repr

/-- A leaf clause: one operator applied to one named field. -/
structure Clause where
  field : String
  op : PredOp
deriving DecidableEq, Repr

/-- A conjunction of leaf clauses appearing inside a `nor` / `or` branch. -/
structure SubQuery where
  clauses : List Clause
deriving DecidableEq, Repr

/-- A top-level item of a predicate: a plain clause, or a `nor` / `or`
combinator over branch conjunctions. -/
inductive TopItem where
  | clause : Clause → TopItem
  | norItem : List SubQuery → TopItem
  | orItem : List SubQuery → TopItem
deriving DecidableEq, Repr

/-- A predicate is the top-level conjunction of its items. -/
abbrev Query := List TopItem

/-- The operators constraining a given field at the top level of a query. -/
def opsOn (q : Query) (f : String) : List PredOp :=
  q.filterMap fun item =>
    match item with
    | .clause c => if c.field = f then some c.op else none
    | _ => none

/-- The fields named by top-level clauses of a query. -/
def queryFields (q : Query) : List String :=
  (q.filterMap fun item =>
    match item with
    | .clause c => some c.field
    | _ => none).dedup

/-- One interval of a field range: `(lo, loInclusive, hi, hiInclusive)`
(spec section 3, "FieldRangeSet"). -/
structure Interval where
  lo : BVal
  loI : Bool
  hi : BVal
  hiI : Bool
deriving DecidableEq, Repr

/-- An interval denotes a nonempty set of values exactly when its bounds are
ordered, or coincide with both endpoints inclusive. -/
def Interval.valid (i : Interval) : Bool :=
  match BVal.cmp i.lo i.hi with
  | .lt => true
  | .eq => i.loI && i.hiI
  | .gt => false

/-- The universal interval covering the whole value domain. -/
def fullInterval : Interval := ⟨.minKey, true, .maxKey, true⟩

/-- The one-point interval. -/
def pointInterval (v : BVal) : Interval := ⟨v, true, v, true⟩

/-- A field range: a union of intervals.  The empty list is the empty range
(impossible match on that field). -/
abbrev FRange := List Interval

/-- Intersection of two intervals, `none` when they do not meet. -/
def Interval.inter (i j : Interval) : Option Interval :=
  let (lo, loI) :=
    match BVal.cmp i.lo j.lo with
    | .lt => (j.lo, j.loI)
    | .eq => (i.lo, i.loI && j.loI)
    | .gt => (i.lo, i.loI)
  let (hi, hiI) :=
    match BVal.cmp i.hi j.hi with
    | .lt => (i.hi, i.hiI)
    | .eq => (i.hi, i.hiI && j.hiI)
    | .gt => (j.hi, j.hiI)
  let r : Interval := ⟨lo, loI, hi, hiI⟩
  if r.valid then some r else none

/-- Intersection of two interval unions. -/
def interRange (xs ys : FRange) : FRange :=
  (xs.map fun i => ys.filterMap fun j => Interval.inter i j).flatten

/-- Modelled from the spec: the interval union contributed by a single leaf
operator (spec sections 3 and 4.1).  Equality and `in` give point intervals,
bounds give half-lines, `ne` the two-sided complement of a point, anchored
regex the `[prefix, prefix++)` band restricted to strings, and `exists`,
`not exists` and geo clauses leave the range universal. -/
def rangeOfOp : PredOp → FRange
  | .eqOp v => [pointInterval v]
  | .ltOp v => [⟨.minKey, true, v, false⟩]
  | .lteOp v => [⟨.minKey, true, v, true⟩]
  | .gtOp v => [⟨v, false, .maxKey, true⟩]
  | .gteOp v => [⟨v, true, .maxKey, true⟩]
  | .neOp v => [⟨.minKey, true, v, false⟩, ⟨v, false, .maxKey, true⟩]
  | .inOp vs => vs.map pointInterval
  | .existsOp _ => [fullInterval]
  | .notExistsOp _ => [fullInterval]
  | .regexOp p => [⟨.str p, true, .str (p ++ "ÿ"), false⟩]
  | .nearOp => [fullInterval]

/-- The range a query's top-level conjunction induces on a field: the
intersection of the per-clause ranges; a field without clauses is universal. -/
def rangeOf (q : Query) (f : String) : FRange :=
  (opsOn q f).foldl (fun acc op => interRange acc (rangeOfOp op)) [fullInterval]

/-- An empty range: no value can match on this field. -/
def FRange.isEmpty (r : FRange) : Bool := List.isEmpty r

/-- The universal range: the field is unconstrained. -/
def FRange.isUniversal (r : FRange) : Bool := r == [fullInterval]

/-- A single point interval: the field is constrained by an equality. -/
def FRange.isEquality (r : FRange) : Bool :=
  match r with
  | [i] => BVal.cmp i.lo i.hi == .eq
  | _ => false

/-- A nonempty finite union of point intervals: equality or `in`
(spec section 3, `isFinite`). -/
def FRange.isFinite (r : FRange) : Bool :=
  !List.isEmpty r && r.all fun i => BVal.cmp i.lo i.hi == .eq

/-- An `exists` test in either polarity, with or without a wrapping `not`. -/
def PredOp.isExistsKind : PredOp → Bool
  | .existsOp _ => true
  | .notExistsOp _ => true
  | _ => false

/-- An `exists` test whose effective polarity admits documents lacking the
field: `exists:false`, or `not` applied to `exists:true`. -/
def PredOp.isEffectiveExistsFalse : PredOp → Bool
  | .existsOp b => !b
  | .notExistsOp b => b
  | _ => false

/-- Modelled from the spec: the predicate shapes that disallow a sparse-index
plan (spec section 4.3, utility rule 2; queryoptimizer.cpp is not in the
source tree).  Refined to the behaviour pinned down by
QueryPlanTests::SparseExistsFalse: at the top level only `exists:false` and
`not:{exists:true}` disallow the sparse index, while inside a `nor` or `or`
branch every `exists` clause of either polarity disallows it. -/
def sparseDisallowed (q : Query) : Bool :=
  q.any fun item =>
    match item with
    | .clause c => c.op.isEffectiveExistsFalse
    | .norItem subs => subs.any fun sq => sq.clauses.any fun c => c.op.isExistsKind
    | .orItem subs => subs.any fun sq => sq.clauses.any fun c => c.op.isExistsKind

/-- Stated from the claim's words, for comparison with the modelled code: the
plan is disallowed when the predicate contains a top-level `exists:false` or
`not:{exists:true}` clause, or any such clause nested inside `nor` or `or`. -/
def claimedSparseTrigger (q : Query) : Bool :=
  q.any fun item =>
    match item with
    | .clause c => c.op.isEffectiveExistsFalse
    | .norItem subs => subs.any fun sq =>
        sq.clauses.any fun c => c.op.isEffectiveExistsFalse
    | .orItem subs => subs.any fun sq =>
        sq.clauses.any fun c => c.op.isEffectiveExistsFalse

/-- Whether a field's top-level constraint is a single equality on a value
whose index-key representation is injective.  Refined to the behaviour pinned
down by QueryPlanTests::ExactKeyQueryTypes: string equality qualifies, while
numeric, object, regex and all other clauses do not (see spec section 9). -/
def exactOn (q : Query) (f : String) : Bool :=
  match opsOn q f with
  | [.eqOp (.str _)] => true
  | _ => false

/-- Modelled from the spec: the `exactKeyMatch` plan attribute (spec
section 4.3; queryoptimizer.cpp is not in the source tree).  Refined to the
behaviour pinned down by QueryPlanTests::KeyMatch / MoreKeyMatch /
ExactKeyQueryTypes: every index-key field must carry an injective equality
constraint and every constrained field must belong to the index key. -/
def exactKeyMatch (q : Query) (key : List (String × Bool)) : Bool :=
  key.all (fun fd => exactOn q fd.1) &&
  (queryFields q).all (fun f => key.any fun fd => fd.1 = f)

/-- Modelled from the spec: direction selection (spec section 4.3,
"Direction selection").  Walks the index key and the requested sort together;
an index field that is not the next sort field may be skipped when it is
equality-constrained.  Returns `some flip` (uniform direction, `true` when
reversed) if the index can serve the sort, `none` otherwise. -/
def checkOrder (eqF : String → Bool) :
    List (String × Bool) → List (String × Bool) → Option Bool → Option Bool
  | _, [], acc => some (acc.getD false)
  | [], _ :: _, _ => none
  | (f, s) :: it, (g, t) :: ot, acc =>
    if f = g then
      let d := xor s t
      match acc with
      | none => checkOrder eqF it ot (some d)
      | some d0 => if d = d0 then checkOrder eqF it ot (some d0) else none
    else if eqF f then checkOrder eqF it ((g, t) :: ot) acc
    else none

/-- The length of the longest index-key prefix whose every field is
constrained to a nonempty finite set (equality or `in`) by the query. -/
def finitePrefixLen (q : Query) (key : List (String × Bool)) : Nat :=
  (key.takeWhile fun fd => (rangeOf q fd.1).isFinite).length

/-- Whether the sort matches the index key starting at position `s`, with the
single uniform flip `d` applied to every direction. -/
def runMatchesAt (key ord : List (String × Bool)) (s : Nat) (d : Bool) : Bool :=
  decide (ord.length + s ≤ key.length) &&
  (((key.drop s).take ord.length).zip ord).all fun p =>
    p.1.1 = p.2.1 && (xor p.1.2 d) = p.2.2

/-- The fields of the query carrying a non-universal range. -/
def constrainedFields (q : Query) : List String :=
  (queryFields q).filter fun f => !(rangeOf q f).isUniversal

/-- Modelled from the spec: the `queryFiniteSetOrderSuffix` plan attribute
(spec section 4.3; queryoptimizer.cpp is not in the source tree).  Refined to
the behaviour pinned down by the QueryFiniteSetOrderSuffix test group: every
constrained field must lie in the finite-set prefix of the index key, and the
sort must be a contiguous run of the index key, in uniform direction, starting
no later than the end of that prefix. -/
def queryFiniteSetOrderSuffix (q : Query) (key ord : List (String × Bool)) :
    Bool :=
  let p := finitePrefixLen q key
  (constrainedFields q).all (fun f => (key.take p).any fun fd => fd.1 = f) &&
  (List.range (p + 1)).any fun s =>
    runMatchesAt key ord s false || runMatchesAt key ord s true

/-- Stated from the claim's words, for comparison with the modelled code: the
index key partitions into a prefix whose every field is finite-set
constrained, a contiguous run matching the sort in uniform direction, and
trailing fields that are unconstrained. -/
def claimedFiniteSetOrderSuffix (q : Query) (key ord : List (String × Bool)) :
    Bool :=
  (List.range (key.length + 1)).any fun s =>
    ((key.take s).all fun fd => (rangeOf q fd.1).isFinite) &&
    (runMatchesAt key ord s false || runMatchesAt key ord s true) &&
    ((key.drop (s + ord.length)).all fun fd => (rangeOf q fd.1).isUniversal)

/-- Modelled from the spec: `scanAndOrderRequired` (spec section 4.3).  The
sort needs a post-scan ordering step unless the index can serve it directly
or the finite-set order suffix streaming applies (spec scenario 5). -/
def scanAndOrderRequired (q : Query) (key ord : List (String × Bool)) : Bool :=
  (checkOrder (fun f => (rangeOf q f).isEquality) key ord none).isNone &&
  !queryFiniteSetOrderSuffix q key ord

/-- Modelled from the spec: the count of non-universal ranges consumed by the
optimal prefix of the index key (spec section 4.3, utility rule 4).  The
prefix extends while fields are equality-constrained; one trailing
non-equality field may close it; a constrained field beyond that point
(`none`) rules the optimal rating out. -/
def optimalCount (q : Query) : List (String × Bool) → Nat → Bool → Option Nat
  | [], acc, _ => some acc
  | (f, _) :: rest, acc, awaiting =>
    let r := rangeOf q f
    if awaiting then
      optimalCount q rest (if r.isUniversal then acc else acc + 1) r.isEquality
    else if r.isUniversal then optimalCount q rest acc false
    else none

/-- Modelled from the spec: the utility rating of a plan
(spec sections 3 and 4.3, "Utility rating", first match wins). -/
inductive Utility where
  | impossible | disallowed | unhelpful | helpful | optimal
deriving DecidableEq, Repr

/-- Whether the first index-key field is unconstrained by the query. -/
def firstFieldUniversal (q : Query) (key : List (String × Bool)) : Bool :=
  match key with
  | [] => true
  | (f, _) :: _ => (rangeOf q f).isUniversal

/-- Modelled from the spec: the utility rating of a btree QueryPlan over index
key `key` (spec section 4.3; queryoptimizer.cpp is not in the source tree).
Rule order: an empty range on an indexed field gives Impossible; a sparse
index with a disallowing `exists` shape gives Disallowed; an in-order plan
whose optimal prefix covers every non-universal range is Optimal; a plan that
neither serves a requested sort nor constrains the first index field is
Unhelpful (per QueryPlanTests::Unhelpful); anything else is Helpful. -/
def utility (key : List (String × Bool)) (sparse : Bool) (q : Query)
    (ord : List (String × Bool)) : Utility :=
  if key.any (fun fd => (rangeOf q fd.1).isEmpty) then .impossible
  else if sparse && sparseDisallowed q then .disallowed
  else if !scanAndOrderRequired q key ord &&
      optimalCount q key 0 true = some (constrainedFields q).length then .optimal
  else if (scanAndOrderRequired q key ord || ord.isEmpty) &&
      firstFieldUniversal q key then .unhelpful
  else .helpful

/-- A document: a flat assignment of scalar values to field names. -/
abbrev Doc := List (String × BVal)

/-- Field lookup in a document. -/
def Doc.get (d : Doc) (f : String) : Option BVal :=
  (d.find? fun p => p.1 = f).map Prod.snd

/-- Modelled from the spec: the residual matcher's per-clause semantics
(spec section 6, `Matcher(predicate).matches(document)`; matcher.cpp is not in
the source tree).  Inequalities apply within one type bracket; `ne` and
`exists` consult field presence; anchored regex tests the string prefix; geo
clauses are resolved by the special access path, not the matcher, and are
modelled as not matching here. -/
def matchOp (op : PredOp) (v : Option BVal) : Bool :=
  match op, v with
  | .eqOp w, some x => x == w
  | .ltOp w, some x => x.sameClass w && BVal.cmp x w == .lt
  | .lteOp w, some x => x.sameClass w && BVal.cmp x w != .gt
  | .gtOp w, some x => x.sameClass w && BVal.cmp x w == .gt
  | .gteOp w, some x => x.sameClass w && BVal.cmp x w != .lt
  | .neOp w, some x => x != w
  | .neOp _, none => true
  | .inOp ws, some x => ws.any fun w => w == x
  | .existsOp b, v => v.isSome == b
  | .notExistsOp b, v => v.isSome != b
  | .regexOp p, some (.str s) => p.isPrefixOf s
  | _, _ => false

/-- Whether a document satisfies one leaf clause. -/
def matchesClause (d : Doc) (c : Clause) : Bool := matchOp c.op (d.get c.field)

/-- Whether a document satisfies a branch conjunction. -/
def matchesSub (d : Doc) (sq : SubQuery) : Bool := sq.clauses.all (matchesClause d)

/-- Whether a document satisfies one top-level item. -/
def matchesItem (d : Doc) : TopItem → Bool
  | .clause c => matchesClause d c
  | .norItem subs => !subs.any (matchesSub d)
  | .orItem subs => subs.any (matchesSub d)

/-- Whether a document matches the whole predicate. -/
def matchesQuery (d : Doc) (q : Query) : Bool := q.all (matchesItem d)

/-- A database: namespaces mapped to their stored documents. -/
abbrev Database := List (String × List Doc)

/-- Modelled from the spec: `runCount(ns, query)` (spec section 6;
ops/count.cpp is not in the source tree).  Returns the number of matching
documents, with the sentinel -1 when the namespace does not exist. -/
def runCount (db : Database) (ns : String) (q : Query) : Int :=
  match (db.find? fun p => p.1 = ns).map Prod.snd with
  | none => -1
  | some docs => (docs.filter fun d => matchesQuery d q).length

/-- Direction or special kind of one index-key component. -/
inductive KeyDir where
  | ascD | descD | twoD
deriving DecidableEq, Repr

/-- Modelled from the spec: an index specification (spec section 3,
"IndexSpec"): name, ordered key pattern, sparse flag, optional special kind
(a `twoD` component marks the geospatial plugin index). -/
structure IndexSpec where
  name : String
  key : List (String × KeyDir)
  sparse : Bool
deriving DecidableEq, Repr

/-- The geospatial field of a special index, if any. -/
def IndexSpec.geoField (s : IndexSpec) : Option String :=
  (s.key.find? fun fd => fd.2 == .twoD).map Prod.fst

/-- Whether the index is a special (geospatial) index. -/
def IndexSpec.isSpecial (s : IndexSpec) : Bool := s.geoField.isSome

/-- The btree view of a key pattern: `true` for an ascending component. -/
def btreeKey (key : List (String × KeyDir)) : List (String × Bool) :=
  key.map fun fd => (fd.1, fd.2 != .descD)

/-- Whether the query carries a geospatial operator on the given field. -/
def hasNearOn (q : Query) (f : String) : Bool :=
  (opsOn q f).any fun op => op == .nearOp

/-- Modelled from the spec: the special-access tag lifted from any geospatial
clause of the predicate (spec section 3, "FieldRangeSet"). -/
def getSpecial (q : Query) : Bool :=
  q.any fun item =>
    match item with
    | .clause c => c.op == .nearOp
    | _ => false

/-- Suitability of a special index for a query on its geo field: a geo
operator or an array equality makes the index usable; otherwise the special
access path cannot serve the query (geo plugin behaviour asserted by
ExcludeSpecialPlanWhenBtreePlan / ExcludeUnindexedPlanWhenSpecialPlan). -/
def specialSuitable (q : Query) (f : String) : Bool :=
  hasNearOn q f ||
  (opsOn q f).any fun op =>
    match op with
    | .eqOp (.arr _) => true
    | _ => false

/-- The access path of a candidate plan: a named index or the collection
scan sentinel. -/
inductive PlanIndex where
  | naturalScan : PlanIndex
  | indexed : List (String × KeyDir) → PlanIndex
deriving DecidableEq, Repr

/-- Modelled from the spec: a candidate QueryPlan's observable attributes
(spec section 3, "QueryPlan"), restricted to the fields the claims mention. -/
structure QPlan where
  indexKey : PlanIndex
  special : String
  util : Utility
  scanAndOrder : Bool
deriving DecidableEq, Repr

/-- The full-collection-scan plan: always Helpful, never special
(per QueryPlanTests::NoIndex). -/
def naturalPlan : QPlan := ⟨.naturalScan, "", .helpful, false⟩

/-- Modelled from the spec: QueryPlan construction for one index
(spec section 4.3; queryoptimizer.cpp is not in the source tree).  A special
index yields a special plan rated Helpful when the query shape suits its geo
field (a special plan is never Optimal, per QueryPlanTests::Special); a btree
index is rated by `utility`. -/
def mkPlan (s : IndexSpec) (q : Query) (ord : List (String × Bool)) : QPlan :=
  match s.geoField with
  | some f =>
    ⟨.indexed s.key, "2d", if specialSuitable q f then .helpful else .unhelpful,
      false⟩
  | none =>
    ⟨.indexed s.key, "", utility (btreeKey s.key) s.sparse q ord,
      scanAndOrderRequired q (btreeKey s.key) ord⟩

/-- Modelled from the spec: a client hint (spec section 4.4, construction
step 1): force the collection scan, or force an index by key or by name. -/
inductive Hint where
  | naturalHint : Hint
  | byKey : List (String × KeyDir) → Hint
  | byName : String → Hint
deriving DecidableEq, Repr

/-- Resolve a hint against the catalog: `some none` is the forced collection
scan, `some (some s)` a forced index, `none` an unresolved hint. -/
def resolveHint (idxs : List IndexSpec) : Hint → Option (Option IndexSpec)
  | .naturalHint => some none
  | .byKey k => (idxs.find? fun s => s.key == k).map some
  | .byName n => (idxs.find? fun s => s.name == n).map some

/-- Modelled from the spec: the cached-plan summary consulted at construction
(spec section 3, "CachedQueryPlan"), keyed here by its index key. -/
structure CachedPlan where
  indexKey : List (String × KeyDir)
deriving DecidableEq, Repr

/-- Modelled from the spec: a constructed QueryPlanSet's observable outputs
(spec sections 3 and 4.4), restricted to the fields the claims mention. -/
structure QPS where
  plans : List QPlan
  usingCachedPlan : Bool
deriving DecidableEq, Repr

/-- The number of candidate plans. -/
def QPS.nPlans (s : QPS) : Nat := s.plans.length

/-- The first (preferred) candidate plan. -/
def QPS.firstPlan (s : QPS) : Option QPlan := s.plans.head?

/-- Modelled from the spec: error outcomes of QueryPlanSet construction
(spec section 7, "UserError"). -/
inductive PlanError where
  | badHint : PlanError
  | specialHintNotAllowed : PlanError
  | specialNotAllowed : PlanError
deriving DecidableEq, Repr

/-- The first index, in catalog enumeration order, whose plan rates Optimal. -/
def firstOptimalSpec (idxs : List IndexSpec) (q : Query)
    (ord : List (String × Bool)) : Option IndexSpec :=
  idxs.find? fun s => (mkPlan s q ord).util == .optimal

/-- Modelled from the spec: plan enumeration when no shortcut applies (spec
section 4.4, steps 5-8; queryoptimizer.cpp is not in the source tree).
Impossible, Disallowed and Unhelpful plans are dropped; if any plan is
Optimal only the first such plan is kept; a special plan is kept, alone, only
when it is allowed and no btree plan is viable (SERVER-4531, per
ExcludeSpecialPlanWhenBtreePlan); otherwise the helpful btree plans plus the
collection scan are kept. -/
def fallbackPlans (idxs : List IndexSpec) (q : Query)
    (ord : List (String × Bool)) (allowSpecial : Bool) : List QPlan :=
  match firstOptimalSpec idxs q ord with
  | some s => [mkPlan s q ord]
  | none =>
    let helpfuls := (idxs.map fun s => mkPlan s q ord).filter fun p =>
      p.util == .helpful && p.special == ""
    let specialP := (idxs.map fun s => mkPlan s q ord).find? fun p =>
      p.util == .helpful && p.special != ""
    match helpfuls, allowSpecial, specialP with
    | [], true, some sp => [sp]
    | _, _, _ => helpfuls ++ [naturalPlan]

/-- Whether the query rules out any match outright: some field's range is
empty (spec section 4.1, `isEmpty`). -/
def matchImpossible (q : Query) : Bool :=
  (queryFields q).any fun f => (rangeOf q f).isEmpty

/-- Whether a cached plan may be reused for this query: its index must still
exist, the plan it yields must rate Helpful or Optimal, and a special plan
requires special plans to be allowed (per AvoidUnhelpfulRecordedPlan,
AvoidDisallowedRecordedPlan and AllowSpecial). -/
def cachedPlanFor (idxs : List IndexSpec) (q : Query)
    (ord : List (String × Bool)) (allowSpecial : Bool) (c : CachedPlan) :
    Option QPlan :=
  match idxs.find? fun s => s.key == c.indexKey with
  | none => none
  | some s =>
    let p := mkPlan s q ord
    if (p.util == .helpful || p.util == .optimal) &&
        (p.special == "" || allowSpecial) then some p else none

/-- Modelled from the spec: QueryPlanSet construction (spec section 4.4;
queryoptimizer.cpp is not in the source tree).  In order: resolve the hint
(step 1-2; an unresolved hint, or a hint forcing a special index when special
plans are disallowed, raises a user error — the latter per the AllowSpecial
test); take the special plan for a geo-tagged query, erroring when special
plans are disallowed (step 3); fall back to the single collection-scan plan
for an impossible match, an unconstrained sort-less query, or a `$natural`
sort; consult the plan cache (step 4); otherwise enumerate (steps 5-8). -/
def makeQps (idxs : List IndexSpec) (q : Query) (ord : List (String × Bool))
    (hint : Option Hint) (cached : Option CachedPlan) (allowSpecial : Bool) :
    Except PlanError QPS :=
  match hint with
  | some h =>
    match resolveHint idxs h with
    | none => .error .badHint
    | some none => .ok ⟨[naturalPlan], false⟩
    | some (some s) =>
      if s.isSpecial && !allowSpecial then .error .specialHintNotAllowed
      else .ok ⟨[mkPlan s q ord], false⟩
  | none =>
    if getSpecial q then
      if !allowSpecial then .error .specialNotAllowed
      else
        match idxs.find? fun s =>
            match s.geoField with
            | some f => hasNearOn q f
            | none => false with
        | some s => .ok ⟨[mkPlan s q ord], false⟩
        | none => .ok ⟨fallbackPlans idxs q ord allowSpecial, false⟩
    else if matchImpossible q then .ok ⟨[naturalPlan], false⟩
    else if (constrainedFields q).isEmpty && ord.isEmpty then
      .ok ⟨[naturalPlan], false⟩
    else if (ord.head?.map Prod.fst) = some "$natural" then
      .ok ⟨[naturalPlan], false⟩
    else
      match cached with
      | some c =>
        match cachedPlanFor idxs q ord allowSpecial c with
        | some p => .ok ⟨[p], true⟩
        | none => .ok ⟨fallbackPlans idxs q ord allowSpecial, false⟩
      | none => .ok ⟨fallbackPlans idxs q ord allowSpecial, false⟩

/-- The plan count of a construction result, when construction succeeded. -/
def nPlansOf (r : Except PlanError QPS) : Option Nat :=
  r.toOption.map QPS.nPlans

/-- The error of a construction result, when construction failed. -/
def errorOf (r : Except PlanError QPS) : Option PlanError :=
  match r with
  | .error e => some e
  | .ok _ => none

/-- The first plan's special tag, when construction succeeded. -/
def firstSpecialOf (r : Except PlanError QPS) : Option String :=
  r.toOption.bind fun s => s.firstPlan.map QPlan.special

/-- The first plan's access path, when construction succeeded. -/
def firstIndexOf (r : Except PlanError QPS) : Option PlanIndex :=
  r.toOption.bind fun s => s.firstPlan.map QPlan.indexKey

/-- Modelled from the spec: the diagnostic rendering of a utility rating. -/
def utilityName : Utility → String
  | .impossible => "Impossible"
  | .disallowed => "Disallowed"
  | .unhelpful => "Unhelpful"
  | .helpful => "Helpful"
  | .optimal => "Optimal"

/-- Modelled from the spec: `QueryPlan::toString` (spec section 6, diagnostic
interface; queryoptimizer.cpp is not in the source tree): a human-readable
rendering of the plan's access path, special tag and utility. -/
def planToString (p : QPlan) : String :=
  "QueryPlan " ++
  (match p.indexKey with
   | .naturalScan => "natural"
   | .indexed k => "index " ++ String.intercalate "," (k.map Prod.fst)) ++
  " special=" ++ p.special ++ " utility=" ++ utilityName p.util

/-- Modelled from the spec: `QueryPlanSet::toString`: the rendering of every
candidate plan. -/
def qpsToString (s : QPS) : String :=
  "QueryPlanSet " ++ String.intercalate "; " (s.plans.map planToString)

/-- Modelled from the spec: the multi-plan scanner's observable state for
diagnostics — its current plan set (spec section 4.6; queryoptimizer.cpp is
not in the source tree). -/
structure MultiPlanScanner where
  currentSet : QPS
deriving DecidableEq, Repr

/-- Modelled from the spec: `MultiPlanScanner::toString`. -/
def mpsToString (m : MultiPlanScanner) : String :=
  "MultiPlanScanner " ++ qpsToString m.currentSet

/-- Shorthand: a top-level clause. -/
def cl (f : String) (op : PredOp) : TopItem := .clause ⟨f, op⟩

/-- Shorthand: an ascending single-field key entry. -/
def asc (f : String) : String × Bool := (f, true)

/-- Shorthand: a descending single-field key entry. -/
def desc (f : String) : String × Bool := (f, false)

/-- The test catalog's plain ascending index on one field. -/
def btreeIdx (n f : String) : IndexSpec := ⟨n, [(f, .ascD)], false⟩

/-- The test catalog's sparse ascending index on one field. -/
def sparseIdx (n f : String) : IndexSpec := ⟨n, [(f, .ascD)], true⟩

/-- The test catalog's 2d special index on one field. -/
def geoIdx (n f : String) : IndexSpec := ⟨n, [(f, .twoD)], false⟩

section ModelValidation

/-! Concrete checks tying the modelled plan attributes to the behaviour
asserted by the unit tests in queryoptimizertests.cpp. -/

example : utility [asc "a"] false [] [asc "a"] = .optimal := by decide
example : utility [asc "a", asc "b"] false [] [asc "a"] = .optimal := by decide
example : utility [asc "a", asc "b"] false [cl "a" (.eqOp (.num 1))]
    [asc "a"] = .optimal := by decide
example : utility [asc "a", asc "b"] false [cl "b" (.eqOp (.num 1))]
    [asc "a"] = .helpful := by decide
example : utility [asc "a", asc "b"] false [cl "a" (.eqOp (.num 1))]
    [asc "b"] = .optimal := by decide
example : utility [asc "a", asc "b"] false [cl "b" (.eqOp (.num 1))]
    [asc "b"] = .unhelpful := by decide
example : utility [asc "a", asc "b"] false
    [cl "a" (.eqOp (.num 1)), cl "b" (.eqOp (.num 1))] [asc "a"] = .optimal := by
  decide
example : utility [asc "a", asc "b"] false
    [cl "a" (.eqOp (.num 1)), cl "b" (.ltOp (.num 1))] [asc "a"] = .optimal := by
  decide
example : utility [asc "a", asc "b", asc "c"] false
    [cl "a" (.eqOp (.num 1)), cl "b" (.ltOp (.num 1))] [asc "a"] = .optimal := by
  decide
example : utility [asc "a", asc "b", asc "c"] false
    [cl "a" (.eqOp (.num 1))] [] = .optimal := by decide
example : utility [asc "a", asc "b", asc "c"] false
    [cl "a" (.eqOp (.num 1)), cl "b" (.ltOp (.num 1))] [] = .optimal := by decide
example : utility [asc "a", asc "b", asc "c"] false
    [cl "a" (.ltOp (.num 1))] [] = .optimal := by decide
example : utility [asc "a", asc "b", asc "c"] false
    [cl "a" (.ltOp (.num 1))] [asc "a"] = .optimal := by decide

example : utility [asc "a"] false [cl "a" (.inOp [])] [] = .impossible := by
  decide
example : utility [asc "a"] false
    [cl "a" (.eqOp (.num 1)), cl "b" (.inOp [])] [] = .helpful := by decide

example : utility [asc "a", asc "b"] false [cl "b" (.eqOp (.num 1))] [] =
    .unhelpful := by decide
example : utility [asc "a", asc "b"] false
    [cl "b" (.eqOp (.num 1)), cl "c" (.eqOp (.num 1))] [asc "a"] = .helpful := by
  decide
example : utility [asc "b"] false
    [cl "b" (.eqOp (.num 1)), cl "c" (.eqOp (.num 1))] [] = .helpful := by decide
example : utility [asc "b", asc "c"] false
    [cl "c" (.eqOp (.num 1)), cl "d" (.eqOp (.num 1))] [] = .unhelpful := by
  decide

example : scanAndOrderRequired [] [asc "a"] [asc "a"] = false := by decide
example : scanAndOrderRequired [] [asc "a"] [asc "b"] = true := by decide
example : scanAndOrderRequired [] [asc "a", desc "b"] [asc "a", desc "b"] =
    false := by decide
example : scanAndOrderRequired [] [asc "a", asc "b"] [asc "a", desc "b"] =
    true := by decide
example : scanAndOrderRequired [] [desc "a", asc "b"] [asc "a", desc "b"] =
    false := by decide
example : scanAndOrderRequired [] [asc "a", asc "b"] [desc "a", desc "b"] =
    false := by decide
example : scanAndOrderRequired [] [asc "a", desc "b"] [desc "a", desc "b"] =
    true := by decide
example : scanAndOrderRequired [cl "b" (.eqOp (.num 4))]
    [asc "a", asc "b", asc "c"] [asc "a", asc "c"] = false := by decide
example : scanAndOrderRequired [cl "b" (.eqOp (.num 4))]
    [asc "a", asc "b"] [asc "a", asc "c"] = true := by decide

example : utility [asc "a"] true [cl "a" (.existsOp false)] [] =
    .disallowed := by decide
example : utility [asc "a"] true [cl "b" (.existsOp false)] [] =
    .disallowed := by decide
example : utility [asc "a"] true [cl "a" (.existsOp true)] [] ≠
    .disallowed := by decide
example : utility [asc "a"] true [cl "a" (.notExistsOp false)] [] ≠
    .disallowed := by decide
example : utility [asc "a"] true [cl "a" (.notExistsOp true)] [] =
    .disallowed := by decide
example : utility [asc "a"] true [cl "a" (.eqOp (.num 1))] [] ≠
    .disallowed := by decide
example : utility [asc "a"] true [.norItem [⟨[⟨"a", .eqOp (.num 1)⟩]⟩]] [] ≠
    .disallowed := by decide
example : utility [asc "a"] true [.norItem [⟨[⟨"a", .existsOp false⟩]⟩]] [] =
    .disallowed := by decide
example : utility [asc "a"] true [.norItem [⟨[⟨"b", .existsOp true⟩]⟩]] [] =
    .disallowed := by decide
example : utility [asc "a"] true
    [.norItem [⟨[⟨"a", .notExistsOp false⟩]⟩]] [] = .disallowed := by decide
example : utility [asc "a"] true
    [.norItem [⟨[⟨"b", .notExistsOp true⟩]⟩]] [] = .disallowed := by decide

example : exactKeyMatch [] [asc "a"] = false := by decide
example : exactKeyMatch [cl "b" (.eqOp (.str "z"))] [asc "b", asc "a"] =
    false := by decide
example : exactKeyMatch [cl "c" (.eqOp (.str "y")), cl "b" (.eqOp (.str "z"))]
    [asc "b", asc "a", asc "c"] = false := by decide
example : exactKeyMatch [cl "b" (.eqOp (.str "y")), cl "a" (.eqOp (.str "z"))]
    [asc "a", asc "b"] = true := by decide
example : exactKeyMatch [cl "a" (.eqOp (.str "z"))] [asc "a"] = true := by
  decide
example : exactKeyMatch [cl "a" (.eqOp (.str "r")), cl "b" (.neOp (.str "q"))]
    [asc "a"] = false := by decide
example : exactKeyMatch [cl "a" (.inOp [])] [asc "a"] = false := by decide
example : exactKeyMatch [cl "a" (.eqOp (.str "b"))] [asc "a"] = true := by
  decide
example : exactKeyMatch [cl "a" (.eqOp (.num 4))] [asc "a"] = false := by
  decide
example : exactKeyMatch [cl "a" (.eqOp (.obj 0))] [asc "a"] = false := by
  decide
example : exactKeyMatch [cl "a" (.regexOp "ddd")] [asc "a"] = false := by
  decide
example : exactKeyMatch [cl "a" (.eqOp (.str "z")), cl "b" (.eqOp (.num 4))]
    [asc "a", asc "b"] = false := by decide

example : queryFiniteSetOrderSuffix [cl "a" (.gtOp (.num 1))]
    [asc "a", asc "b"] [asc "b"] = false := by decide
example : queryFiniteSetOrderSuffix [cl "a" (.eqOp (.num 1))]
    [asc "a", asc "b"] [asc "b"] = true := by decide
example : queryFiniteSetOrderSuffix [cl "a" (.inOp [.num 0, .num 1])]
    [asc "a", asc "b"] [asc "b"] = true := by decide
example : queryFiniteSetOrderSuffix
    [cl "a" (.eqOp (.num 10)), cl "b" (.inOp [.num 0, .num 1])]
    [asc "a", asc "b", asc "c"] [asc "c"] = true := by decide
example : queryFiniteSetOrderSuffix
    [cl "a" (.inOp [.num 5, .num 6]), cl "b" (.inOp [.num 0, .num 1])]
    [asc "a", asc "b", asc "c"] [asc "c"] = true := by decide
example : queryFiniteSetOrderSuffix
    [cl "a" (.inOp [.num 5, .num 6]), cl "z" (.eqOp (.num 4))]
    [asc "a", asc "b"] [asc "b"] = false := by decide
example : queryFiniteSetOrderSuffix
    [cl "a" (.eqOp (.num 10)), cl "b" (.inOp [.num 0, .num 1])]
    [asc "a", asc "b", asc "c"] [asc "b", asc "c"] = true := by decide
example : queryFiniteSetOrderSuffix [cl "a" (.inOp [.num 0, .num 1])]
    [asc "a", asc "b"] [asc "a", desc "b"] = false := by decide
example : queryFiniteSetOrderSuffix [cl "a" (.inOp [.num 0, .num 1])]
    [asc "a", asc "b", asc "c"] [asc "c"] = false := by decide
example : queryFiniteSetOrderSuffix [cl "a" (.inOp [.num 0, .num 1])]
    [asc "a", asc "b", asc "c"] [asc "b"] = true := by decide
example : queryFiniteSetOrderSuffix [cl "a" (.inOp [.num 0, .num 1])]
    [asc "a", asc "b"] [] = true := by decide
example : queryFiniteSetOrderSuffix
    [cl "a" (.eqOp (.num 4)), cl "" (.inOp [.num 0, .num 1])]
    [asc "a", asc ""] [] = true := by decide

example : scanAndOrderRequired
    [cl "a" (.eqOp (.num 10)), cl "b" (.inOp [.num 0, .num 1])]
    [asc "a", asc "b", asc "c"] [asc "c"] = false := by decide

example : nPlansOf (makeQps [] [cl "a" (.eqOp (.num 4))] [asc "b"]
    none none true) = some 1 := by decide
example : nPlansOf (makeQps [btreeIdx "a_1" "a", btreeIdx "b_2" "a"]
    [cl "a" (.eqOp (.num 4))] [] none none true) = some 1 := by decide
example : nPlansOf (makeQps [btreeIdx "a_1" "a", btreeIdx "b_1" "b"]
    [cl "a" (.eqOp (.num 4))] [asc "b"] none none true) = some 3 := by decide
example : nPlansOf (makeQps [btreeIdx "a_1" "a", btreeIdx "b_1" "b"]
    [] [] none none true) = some 1 := by decide
example : nPlansOf (makeQps [btreeIdx "a_1" "a", btreeIdx "b_1" "b"]
    [cl "a" (.eqOp (.num 1))] [asc "b"]
    (some (.byKey [("a", .ascD)])) none true) = some 1 := by decide
example : nPlansOf (makeQps [btreeIdx "a_1" "a", btreeIdx "b_1" "b"]
    [cl "a" (.eqOp (.num 1))] [asc "b"]
    (some (.byName "a_1")) none true) = some 1 := by decide
example : nPlansOf (makeQps [btreeIdx "a_1" "a", btreeIdx "b_1" "b"]
    [cl "a" (.eqOp (.num 1))] [asc "b"]
    (some .naturalHint) none true) = some 1 := by decide
example : nPlansOf (makeQps [btreeIdx "a_1" "a", btreeIdx "b_2" "a"]
    [cl "a" (.eqOp (.num 1))] [asc "$natural"] none none true) = some 1 := by
  decide
example : errorOf (makeQps [] [cl "a" (.eqOp (.num 1))] [asc "b"]
    (some (.byName "a_1")) none true) = some .badHint := by decide
example : nPlansOf (makeQps [btreeIdx "a_1" "a", btreeIdx "b_1" "b"]
    [cl "a" (.eqOp (.num 1)), cl "c" (.eqOp (.num 2))] [] none none true) =
    some 2 := by decide

example : nPlansOf (makeQps [geoIdx "a_2d" "a", btreeIdx "a_1" "a"]
    [cl "a" (.eqOp (.arr 0)), cl "b" (.eqOp (.num 1))] [] none none true) =
    some 2 := by decide
example : firstSpecialOf (makeQps [geoIdx "a_2d" "a", btreeIdx "a_1" "a"]
    [cl "a" (.eqOp (.arr 0)), cl "b" (.eqOp (.num 1))] [] none none true) =
    some "" := by decide
example : nPlansOf (makeQps [geoIdx "a_2d" "a"]
    [cl "a" (.eqOp (.arr 0)), cl "b" (.eqOp (.num 1))] [] none none true) =
    some 1 := by decide
example : firstSpecialOf (makeQps [geoIdx "a_2d" "a"]
    [cl "a" (.eqOp (.arr 0)), cl "b" (.eqOp (.num 1))] [] none none true) =
    some "2d" := by decide

example : firstIndexOf (makeQps [geoIdx "a_2d" "a"] [cl "a" (.eqOp (.arr 0))]
    [] none none true) = some (.indexed [("a", .twoD)]) := by decide
example : firstIndexOf (makeQps [geoIdx "a_2d" "a"] [cl "a" (.eqOp (.arr 0))]
    [] none none false) = some .naturalScan := by decide
example : errorOf (makeQps [geoIdx "a_2d" "a"] [cl "a" (.eqOp (.arr 0))] []
    (some (.byKey [("a", .twoD)])) none false) = some .specialHintNotAllowed := by
  decide
example : errorOf (makeQps [geoIdx "a_2d" "a"] [cl "a" .nearOp] [] none none
    false) = some .specialNotAllowed := by decide
example : firstIndexOf (makeQps [geoIdx "a_2d" "a"] [cl "a" (.eqOp (.arr 0))]
    [] none (some ⟨[("a", .twoD)]⟩) false) = some .naturalScan := by decide

example : (makeQps [btreeIdx "a_1" "a", btreeIdx "b_1" "b"]
    [cl "a" (.eqOp (.num 1))] [] none (some ⟨[("a", .ascD)]⟩) true).toOption.map
    QPS.usingCachedPlan = some true := by decide
example : nPlansOf (makeQps [btreeIdx "a_1" "a", btreeIdx "b_1" "b"]
    [cl "a" (.eqOp (.num 1))] [asc "b"] none (some ⟨[("a", .ascD)]⟩) true) =
    some 1 := by decide
example : nPlansOf (makeQps [btreeIdx "a_1" "a", btreeIdx "b_1" "b"]
    [cl "a" (.eqOp (.num 1))] [asc "b"] none (some ⟨[("b", .ascD)]⟩) true) =
    some 1 := by decide
example : firstIndexOf (makeQps [btreeIdx "a_1" "a"] [cl "b" (.eqOp (.num 1))]
    [] none (some ⟨[("a", .ascD)]⟩) true) = some .naturalScan := by decide
example : firstIndexOf (makeQps [sparseIdx "a_1" "a"]
    [cl "a" (.existsOp false)] [] none (some ⟨[("a", .ascD)]⟩) true) =
    some .naturalScan := by decide

example : (mkPlan (geoIdx "a_2d" "a") [cl "a" .nearOp] []).util = .helpful := by
  decide
example : naturalPlan.util = .helpful ∧ naturalPlan.scanAndOrder = false := by
  decide

example : runCount [("u", [])] "u" [cl "a" (.eqOp (.num 4))] = 0 := by decide
example :
    runCount [("u", [[("a", .num 1)], [("a", .num 4)], [("a", .num 4)]])]
      "u" [cl "a" (.eqOp (.num 4))] = 2 := by decide
example :
    runCount [("u", [[("a", .num 1)], [("a", .num 4)], [("a", .num 4)]])]
      "u" [] = 3 := by decide
example :
    runCount [("u", [[("a", .num 1)], [("a", .num 4)], [("a", .num 4)]])]
      "u" [cl "a" (.gtOp (.num 0))] = 3 := by decide
example :
    runCount [("u", [[("a", .num 1)]])] "missing" [] = -1 := by decide
example :
    runCount [("u", [[("a", .num 1)], [("a", .num 4)], [("a", .num 4)]])]
      "u" [cl "a" (.gtOp (.num 0)), cl "a" (.ltOp (.num (-1)))] = 0 := by
  decide

end ModelValidation

/-- C1: for every predicate and every indexed QueryPlan, the plan's utility is
Impossible if and only if the field range set derived from the predicate has an
empty range on some field that is part of this plan's index key; in
particular, an empty range on a field not covered by the index does not make
the plan Impossible: the plan for the predicate with clauses a equals 1 and b
in the empty list, over the index on a alone, rates Helpful. -/
theorem utility_impossible_iff_empty_indexed_range :
    (∀ (key : List (String × Bool)) (sparse : Bool) (q : Query)
        (ord : List (String × Bool)),
      utility key sparse q ord = .impossible ↔
        ∃ fd ∈ key, (rangeOf q fd.1).isEmpty = true) ∧
    utility [asc "a"] false [cl "a" (.eqOp (.num 1)), cl "b" (.inOp [])] [] =
      .helpful := by
  refine ⟨fun key sparse q ord => ?_, by decide⟩
  rw [← List.any_eq_true]
  cases h : key.any fun fd => (rangeOf q fd.1).isEmpty with
  | true => simp [utility, h]
  | false =>
    simp only [utility, h, Bool.false_eq_true, if_false]
    constructor
    · intro hC
      exfalso
      split at hC
      · exact absurd hC (by simp)
      · split at hC
        · exact absurd hC (by simp)
        · split at hC
          · exact absurd hC (by simp)
          · exact absurd hC (by simp)
    · intro hF
      exact absurd hF (by simp)

/-- C2 counterexample: a predicate whose only `exists` test is a plain
`exists: true` nested inside `nor` is not covered by the claim's trigger
(a top-level `exists:false` or `not exists:true`, or such a clause nested in
`nor` or `or`), yet the sparse-index plan for it rates Disallowed, as the
SparseExistsFalse test asserts. -/
theorem sparse_nested_exists_true_refutes_claim :
    utility [asc "a"] true [.norItem [⟨[⟨"a", .existsOp true⟩]⟩]] [] =
      .disallowed ∧
    claimedSparseTrigger [.norItem [⟨[⟨"a", .existsOp true⟩]⟩]] = false := by
  decide

/-- C2 amended: a QueryPlan over a sparse index whose predicate is not
impossible on an indexed field has utility Disallowed exactly when the
predicate contains a top-level `exists:false` or `not exists:true` clause on
any field, or an `exists` clause of either polarity, with or without `not`,
nested inside `nor` or `or`; every other predicate, including plain
equalities and top-level `exists:true`, leaves the sparse plan allowed. -/
theorem sparse_utility_disallowed_iff :
    ∀ (key : List (String × Bool)) (q : Query) (ord : List (String × Bool)),
      utility key true q ord = .disallowed ↔
        (key.all (fun fd => !(rangeOf q fd.1).isEmpty) = true ∧
          sparseDisallowed q = true) := by
  intro key q ord
  cases h : key.any fun fd => (rangeOf q fd.1).isEmpty with
  | true =>
    simp only [utility, h, if_true]
    constructor
    · intro hC; cases hC
    · rintro ⟨hall, _⟩
      rcases List.any_eq_true.mp h with ⟨fd, hmem, hp⟩
      have := List.all_eq_true.mp hall fd hmem
      simp [hp] at this
  | false =>
    have hall : key.all (fun fd => !(rangeOf q fd.1).isEmpty) = true := by
      rw [List.all_eq_true]
      intro fd hm
      have := List.any_eq_false.mp h fd hm
      simp at this
      simp [this]
    simp only [utility, h, Bool.false_eq_true, if_false, Bool.true_and]
    cases hd : sparseDisallowed q with
    | true => simp [hall]
    | false =>
      simp only [Bool.false_eq_true, if_false, false_and, iff_false,
        and_false]
      split
      · simp
      · split
        · simp
        · simp

/-- C3 counterexample: a single numeric equality on the unique index-key
field does not give exactKeyMatch, although the claim counts scalar numbers
among the qualifying types; the ExactKeyQueryTypes test asserts the same. -/
theorem exactKeyMatch_scalar_number_refutes_claim :
    exactKeyMatch [cl "a" (.eqOp (.num 4))] [asc "a"] = false := by decide

/-- C3 amended: for a predicate that is a single equality clause on one field
over an index on exactly that field, exactKeyMatch holds exactly when the
equality value is a scalar string; scalar numbers do not qualify, and regex,
nested-object values, and clauses on a field outside the index key all fail. -/
theorem exactKeyMatch_single_equality_types :
    (∀ (f : String) (v : BVal),
      exactKeyMatch [cl f (.eqOp v)] [(f, true)] = v.isStr) ∧
    (∀ (f p : String), exactKeyMatch [cl f (.regexOp p)] [(f, true)] = false) ∧
    (∀ (f : String) (t : Nat),
      exactKeyMatch [cl f (.eqOp (.obj t))] [(f, true)] = false) ∧
    (∀ (f g : String) (v : BVal), f ≠ g →
      exactKeyMatch [cl g (.eqOp v)] [(f, true)] = false) := by
  refine ⟨fun f v => ?_, fun f p => ?_, fun f t => ?_, fun f g v hfg => ?_⟩
  · cases v <;> simp [exactKeyMatch, exactOn, opsOn, queryFields, cl, BVal.isStr]
  · simp [exactKeyMatch, exactOn, opsOn, queryFields, cl]
  · simp [exactKeyMatch, exactOn, opsOn, queryFields, cl]
  · simp [exactKeyMatch, exactOn, opsOn, queryFields, cl, Ne.symm hfg]

/-- C3 witness: the amended theorem applied at concrete inputs — a string
equality on the indexed field is an exact key match, while an equality on a
field outside the index key is not. -/
theorem exactKeyMatch_single_equality_types_witness :
    exactKeyMatch [cl "a" (.eqOp (.str "b"))] [asc "a"] = true ∧
    exactKeyMatch [cl "b" (.eqOp (.str "z"))] [asc "a"] = false := by
  constructor
  · have h := exactKeyMatch_single_equality_types.1 "a" (.str "b")
    simpa [asc, BVal.isStr] using h
  · exact exactKeyMatch_single_equality_types.2.2.2 "a" "b" (.str "z")
      (by decide)

/-- A `find?` hit on a decomposed list whose prefix rejects the predicate. -/
theorem find?_append_first {α : Type} (p : α → Bool) :
    ∀ (pre : List α) (a : α) (post : List α), p a = true →
      (∀ x ∈ pre, p x = false) → (pre ++ a :: post).find? p = some a := by
  intro pre
  induction pre with
  | nil => intro a post ha _; simpa using List.find?_cons_of_pos _ ha
  | cons x xs ih =>
    intro a post ha hall
    rw [List.cons_append, List.find?_cons_of_neg _ (by
      simpa using hall x (List.mem_cons_self x xs))]
    exact ih a post ha fun y hy => hall y (List.mem_cons_of_mem x hy)

/-- When some index of the catalog rates Optimal, plan enumeration keeps
exactly one plan. -/
theorem fallbackPlans_length_one_of_optimal
    (idxs : List IndexSpec) (q : Query) (ord : List (String × Bool))
    (allowSpecial : Bool) (s : IndexSpec) (hs : s ∈ idxs)
    (hopt : (mkPlan s q ord).util = .optimal) :
    (fallbackPlans idxs q ord allowSpecial).length = 1 := by
  unfold fallbackPlans
  cases hfo : firstOptimalSpec idxs q ord with
  | some t => simp
  | none =>
    exfalso
    have := List.find?_eq_none.mp hfo s hs
    simp [hopt] at this

/-- Every successful QueryPlanSet construction either holds exactly one plan,
or went through plan enumeration with no hint and no cached plan in use. -/
theorem makeQps_ok_cases (idxs : List IndexSpec) (q : Query)
    (ord : List (String × Bool)) (hint : Option Hint)
    (cached : Option CachedPlan) (allowSpecial : Bool) (qps : QPS) :
    makeQps idxs q ord hint cached allowSpecial = .ok qps →
    qps.nPlans = 1 ∨
      (hint = none ∧ qps = ⟨fallbackPlans idxs q ord allowSpecial, false⟩) := by
  intro hok
  cases hint with
  | some h =>
    left
    simp only [makeQps] at hok
    generalize hres : resolveHint idxs h = r at hok
    cases r with
    | none => cases hok
    | some o =>
      cases o with
      | none => injection hok with h1; subst h1; rfl
      | some s =>
        simp only [] at hok
        by_cases hsp : (s.isSpecial && !allowSpecial) = true
        · rw [if_pos hsp] at hok; cases hok
        · rw [if_neg hsp] at hok; injection hok with h1; subst h1; rfl
  | none =>
    simp only [makeQps] at hok
    by_cases hg : getSpecial q = true
    · rw [if_pos hg] at hok
      by_cases ha : (!allowSpecial) = true
      · rw [if_pos ha] at hok; cases hok
      · rw [if_neg ha] at hok
        generalize hf : idxs.find? (fun s =>
            match s.geoField with
            | some f => hasNearOn q f
            | none => false) = r at hok
        cases r with
        | some s => left; injection hok with h1; subst h1; rfl
        | none =>
          right; injection hok with h1; subst h1
          exact ⟨rfl, rfl⟩
    · rw [if_neg hg] at hok
      by_cases hi : matchImpossible q = true
      · rw [if_pos hi] at hok; left; injection hok with h1; subst h1; rfl
      · rw [if_neg hi] at hok
        by_cases hu : ((constrainedFields q).isEmpty && ord.isEmpty) = true
        · rw [if_pos hu] at hok; left; injection hok with h1; subst h1; rfl
        · rw [if_neg hu] at hok
          by_cases hn : (ord.head?.map Prod.fst) = some "$natural"
          · rw [if_pos hn] at hok; left; injection hok with h1; subst h1; rfl
          · rw [if_neg hn] at hok
            cases cached with
            | none =>
              right; injection hok with h1; subst h1; exact ⟨rfl, rfl⟩
            | some c =>
              simp only [] at hok
              generalize hcp : cachedPlanFor idxs q ord allowSpecial c = r
                at hok
              cases r with
              | some p =>
                left; injection hok with h1; subst h1; rfl
              | none =>
                right; injection hok with h1; subst h1
                exact ⟨rfl, rfl⟩

/-- C4: a successfully constructed QueryPlanSet holds exactly one plan
whenever a hint was supplied, or a cached plan is in use, or some catalog
index rates Optimal for the query; and when several indexes rate Optimal,
enumeration keeps exactly the plan of the first of them, in catalog order. -/
theorem nPlans_one_when_optimal_hint_or_cached :
    (∀ (idxs : List IndexSpec) (q : Query) (ord : List (String × Bool))
        (hint : Option Hint) (cached : Option CachedPlan)
        (allowSpecial : Bool) (qps : QPS),
      makeQps idxs q ord hint cached allowSpecial = .ok qps →
      (hint.isSome = true ∨ qps.usingCachedPlan = true ∨
        ∃ s ∈ idxs, (mkPlan s q ord).util = .optimal) →
      qps.nPlans = 1) ∧
    (∀ (idxs : List IndexSpec) (q : Query) (ord : List (String × Bool))
        (allowSpecial : Bool) (pre : List IndexSpec) (s : IndexSpec)
        (post : List IndexSpec),
      idxs = pre ++ s :: post →
      (mkPlan s q ord).util = .optimal →
      (∀ x ∈ pre, (mkPlan x q ord).util ≠ .optimal) →
      fallbackPlans idxs q ord allowSpecial = [mkPlan s q ord]) := by
  constructor
  · intro idxs q ord hint cached allowSpecial qps hok hcond
    rcases makeQps_ok_cases idxs q ord hint cached allowSpecial qps hok with
      h1 | ⟨hnone, rfl⟩
    · exact h1
    · rcases hcond with hs | hs | ⟨s, hmem, hopt⟩
      · rw [hnone] at hs; cases hs
      · cases hs
      · exact fallbackPlans_length_one_of_optimal idxs q ord allowSpecial s
          hmem hopt
  · intro idxs q ord allowSpecial pre s post hsplit hopt hpre
    subst hsplit
    have hfo : firstOptimalSpec (pre ++ s :: post) q ord = some s := by
      unfold firstOptimalSpec
      refine find?_append_first _ pre s post (by simp [hopt]) ?_
      intro x hx
      simpa using hpre x hx
    unfold fallbackPlans
    rw [hfo]

/-- C4 witness: with two identical-key indexes both rating Optimal for the
query with clause a equals 4, construction keeps a single plan. -/
theorem nPlans_one_when_optimal_hint_or_cached_witness :
    nPlansOf (makeQps [btreeIdx "a_1" "a", btreeIdx "b_2" "a"]
      [cl "a" (.eqOp (.num 4))] [] none none true) = some 1 := by
  have h0 : makeQps [btreeIdx "a_1" "a", btreeIdx "b_2" "a"]
      [cl "a" (.eqOp (.num 4))] [] none none true =
      .ok ⟨[mkPlan (btreeIdx "a_1" "a") [cl "a" (.eqOp (.num 4))] []],
        false⟩ := rfl
  have h1 := nPlans_one_when_optimal_hint_or_cached.1 _ _ _ _ _ _ _ h0
    (Or.inr (Or.inr ⟨btreeIdx "a_1" "a", by decide, by decide⟩))
  rw [h0]
  exact congrArg some h1

/-- C5: with both a 2d special index and a btree index on field a, the
predicate with an array equality on a and an equality on b (no geo operator)
yields two plans whose first is not the special plan; the predicate using the
geo near operator yields exactly one plan, the special plan; and with only
the 2d index, the array-shaped non-geo predicate yields the special plan
alone, with the unindexed plan excluded. -/
theorem special_vs_btree_coexistence :
    nPlansOf (makeQps [geoIdx "a_2d" "a", btreeIdx "a_1" "a"]
      [cl "a" (.eqOp (.arr 0)), cl "b" (.eqOp (.num 1))] [] none none true) =
      some 2 ∧
    firstSpecialOf (makeQps [geoIdx "a_2d" "a", btreeIdx "a_1" "a"]
      [cl "a" (.eqOp (.arr 0)), cl "b" (.eqOp (.num 1))] [] none none true) =
      some "" ∧
    nPlansOf (makeQps [geoIdx "a_2d" "a", btreeIdx "a_1" "a"]
      [cl "a" .nearOp] [] none none true) = some 1 ∧
    firstSpecialOf (makeQps [geoIdx "a_2d" "a", btreeIdx "a_1" "a"]
      [cl "a" .nearOp] [] none none true) = some "2d" ∧
    nPlansOf (makeQps [geoIdx "a_2d" "a"]
      [cl "a" (.eqOp (.arr 0)), cl "b" (.eqOp (.num 1))] [] none none true) =
      some 1 ∧
    firstSpecialOf (makeQps [geoIdx "a_2d" "a"]
      [cl "a" (.eqOp (.arr 0)), cl "b" (.eqOp (.num 1))] [] none none true) =
      some "2d" := by decide

/-- The impossible-match predicate of the Count test: a greater than 0 and a
less than minus 1. -/
def impossibleQuery : Query :=
  [cl "a" (.gtOp (.num 0)), cl "a" (.ltOp (.num (-1)))]

/-- No document satisfies both a greater than 0 and a less than minus 1. -/
theorem matchesQuery_impossible (d : Doc) :
    matchesQuery d impossibleQuery = false := by
  simp only [impossibleQuery, matchesQuery, List.all_cons, List.all_nil,
    Bool.and_true, matchesItem, cl, matchesClause]
  cases hv : d.get "a" with
  | none => simp [matchOp]
  | some x =>
    cases x with
    | num n =>
      rcases lt_or_ge n 0 with h0 | h0
      · have h1 : BVal.cmp (.num n) (.num 0) = .lt := by
          simp [BVal.cmp, h0]
        simp [matchOp, h1,
          show (Ordering.lt == Ordering.gt) = false from by decide]
      · have h1 : BVal.cmp (.num n) (.num (-1)) = .gt := by
          have hx : ¬ n < -1 := by omega
          have hy : ¬ n = -1 := by omega
          simp [BVal.cmp, hx, hy]
        simp [matchOp, h1,
          show (Ordering.gt == Ordering.lt) = false from by decide]
    | minKey => simp [matchOp, BVal.sameClass, BVal.rank]
    | nullV => simp [matchOp, BVal.sameClass, BVal.rank]
    | str s => simp [matchOp, BVal.sameClass, BVal.rank]
    | obj t => simp [matchOp, BVal.sameClass, BVal.rank]
    | arr t => simp [matchOp, BVal.sameClass, BVal.rank]
    | maxKey => simp [matchOp, BVal.sameClass, BVal.rank]

/-- C6: runCount returns the number of matching documents on an existing
namespace, the sentinel -1 when the namespace does not exist, and 0 rather
than an error for an impossible-match predicate, which no document can
satisfy. -/
theorem runCount_spec :
    (∀ (db : Database) (ns : String) (q : Query),
      (db.find? fun p => p.1 = ns) = none → runCount db ns q = -1) ∧
    (∀ (db : Database) (ns : String) (q : Query) (e : String × List Doc),
      (db.find? fun p => p.1 = ns) = some e →
      runCount db ns q =
        ((e.2.filter fun d => matchesQuery d q).length : Int)) ∧
    (∀ d : Doc, matchesQuery d impossibleQuery = false) ∧
    (∀ (db : Database) (ns : String) (e : String × List Doc),
      (db.find? fun p => p.1 = ns) = some e →
      runCount db ns impossibleQuery = 0) := by
  refine ⟨fun db ns q h => ?_, fun db ns q e h => ?_,
    matchesQuery_impossible, fun db ns e h => ?_⟩
  · simp [runCount, h]
  · simp [runCount, h]
  · have hnil : (e.2.filter fun d => matchesQuery d impossibleQuery) = [] :=
      List.filter_eq_nil_iff.mpr fun d _ => by
        simp [matchesQuery_impossible d]
    simp [runCount, h, hnil]

/-- C6 witness: the theorem applied at concrete inputs — a missing namespace
returns the sentinel, and the impossible predicate counts zero documents. -/
theorem runCount_spec_witness :
    runCount [("u", [[("a", .num 1)]])] "missing" [] = -1 ∧
    runCount [("u", [[("a", .num 1)], [("a", .num 4)]])] "u"
      impossibleQuery = 0 := by
  constructor
  · exact runCount_spec.1 _ _ _ (by decide)
  · exact runCount_spec.2.2.2 [("u", [[("a", .num 1)], [("a", .num 4)]])] "u"
      ("u", [[("a", .num 1)], [("a", .num 4)]]) (by decide)

/-- C7 counterexample: for the NonCoveredRange configuration — predicate a in
a two-point set together with an equality on z, index on a and b, sort on b —
the claim's partition characterisation holds (prefix a finite, run b matching
the sort, no trailing fields), yet the plan attribute is false, as the
NonCoveredRange test asserts: z is constrained but outside the finite-set
prefix. -/
theorem qfsos_noncovered_range_refutes_claim :
    claimedFiniteSetOrderSuffix
      [cl "a" (.inOp [.num 5, .num 6]), cl "z" (.eqOp (.num 4))]
      [asc "a", asc "b"] [asc "b"] = true ∧
    queryFiniteSetOrderSuffix
      [cl "a" (.inOp [.num 5, .num 6]), cl "z" (.eqOp (.num 4))]
      [asc "a", asc "b"] [asc "b"] = false := by decide

/-- C7 amended: queryFiniteSetOrderSuffix holds exactly when every field
constrained by the predicate — including fields outside the index key — lies
in the maximal finite-set-constrained prefix of the index key, and the sort
is a contiguous run of the index key in the same or uniformly flipped
directions starting no later than the end of that prefix; in particular, for
the index on a, b, c with predicate a equals 10 and b in a two-point set and
sort on c the flag is true and scanAndOrderRequired is false, while the
predicate a in a two-point set with sort on c leaves the intervening index
field b unconstrained and the flag is false. -/
theorem qfsos_characterization :
    (∀ (q : Query) (key ord : List (String × Bool)),
      queryFiniteSetOrderSuffix q key ord = true ↔
        ((∀ f ∈ constrainedFields q,
            ∃ fd ∈ key.take (finitePrefixLen q key), fd.1 = f) ∧
          ∃ s ≤ finitePrefixLen q key,
            (runMatchesAt key ord s false = true ∨
              runMatchesAt key ord s true = true))) ∧
    (queryFiniteSetOrderSuffix
        [cl "a" (.eqOp (.num 10)), cl "b" (.inOp [.num 0, .num 1])]
        [asc "a", asc "b", asc "c"] [asc "c"] = true ∧
      scanAndOrderRequired
        [cl "a" (.eqOp (.num 10)), cl "b" (.inOp [.num 0, .num 1])]
        [asc "a", asc "b", asc "c"] [asc "c"] = false) ∧
    queryFiniteSetOrderSuffix [cl "a" (.inOp [.num 0, .num 1])]
      [asc "a", asc "b", asc "c"] [asc "c"] = false := by
  refine ⟨fun q key ord => ?_, by decide, by decide⟩
  simp only [queryFiniteSetOrderSuffix, Bool.and_eq_true, List.all_eq_true,
    List.any_eq_true, List.mem_range, Nat.lt_succ_iff, Bool.or_eq_true,
    decide_eq_true_eq]

/-- C7 witness: the amended characterisation applied at the EqualInSort
configuration, exhibiting the run start position after the finite prefix. -/
theorem qfsos_characterization_witness :
    queryFiniteSetOrderSuffix
      [cl "a" (.eqOp (.num 10)), cl "b" (.inOp [.num 0, .num 1])]
      [asc "a", asc "b", asc "c"] [asc "c"] = true := by
  exact (qfsos_characterization.1 _ _ _).mpr
    ⟨by decide, 2, by decide, Or.inl (by decide)⟩

/-- Stated from the amended claim's words, for comparison with the modelled
code: construction raises a user error when a supplied hint does not resolve,
when a supplied hint resolves to a special index while special plans are not
allowed, or when no hint is supplied and the predicate carries a geospatial
operator while special plans are not allowed. -/
def amendedUserErrorCondition (idxs : List IndexSpec) (q : Query)
    (hint : Option Hint) (allowSpecial : Bool) : Bool :=
  match hint with
  | some h =>
    match resolveHint idxs h with
    | none => true
    | some none => false
    | some (some s) => s.isSpecial && !allowSpecial
  | none => getSpecial q && !allowSpecial

/-- C8 counterexample: hinting the 2d index for a predicate without any
geospatial operator, with special plans disallowed, raises a user error even
though the hint resolves and the predicate carries no geo operator — a case
outside the claim's enumeration, asserted by the AllowSpecial test. -/
theorem special_hint_error_refutes_claim :
    errorOf (makeQps [geoIdx "a_2d" "a"] [cl "a" (.eqOp (.arr 0))] []
      (some (.byKey [("a", .twoD)])) none false) =
      some .specialHintNotAllowed ∧
    getSpecial [cl "a" (.eqOp (.arr 0))] = false ∧
    (resolveHint [geoIdx "a_2d" "a"] (.byKey [("a", .twoD)])).isSome =
      true := by decide

/-- C8 amended: for every input, QueryPlanSet construction fails with a user
error exactly when the amended condition holds: the hint does not resolve to
an existing index, or the hint resolves to a special index while allowSpecial
is false, or no hint is supplied and the predicate uses a geospatial operator
while allowSpecial is false; the error is the construction result itself. -/
theorem makeQps_error_iff :
    ∀ (idxs : List IndexSpec) (q : Query) (ord : List (String × Bool))
      (hint : Option Hint) (cached : Option CachedPlan) (allowSpecial : Bool),
      (errorOf (makeQps idxs q ord hint cached allowSpecial)).isSome =
        amendedUserErrorCondition idxs q hint allowSpecial := by
  intro idxs q ord hint cached allowSpecial
  cases hint with
  | some h =>
    simp only [makeQps, amendedUserErrorCondition]
    generalize resolveHint idxs h = r
    cases r with
    | none => simp [errorOf]
    | some o =>
      cases o with
      | none => simp [errorOf]
      | some s =>
        by_cases hsp : (s.isSpecial && !allowSpecial) = true
        · simp [errorOf, hsp]
        · simp [errorOf, hsp]
  | none =>
    simp only [makeQps, amendedUserErrorCondition]
    by_cases hg : getSpecial q = true
    · by_cases ha : (!allowSpecial) = true
      · simp [errorOf, hg, ha]
      · rw [if_pos hg, if_neg ha]
        generalize (idxs.find? fun s =>
            match s.geoField with
            | some f => hasNearOn q f
            | none => false) = r
        have ha2 : allowSpecial = true := by simpa using ha
        cases r with
        | some s => simp [errorOf, hg, ha2]
        | none => simp [errorOf, hg, ha2]
    · rw [if_neg hg]
      by_cases hi : matchImpossible q = true
      · simp [errorOf, hg, hi]
      · by_cases hu : ((constrainedFields q).isEmpty && ord.isEmpty) = true
        · simp [errorOf, hg, hi, hu]
        · by_cases hn : (ord.head?.map Prod.fst) = some "$natural"
          · simp [errorOf, hg, hi, hu, hn]
          · cases cached with
            | none => simp [errorOf, hg, hi, hu, hn]
            | some c =>
              simp only [hi, hu, hn, if_neg, if_false]
              generalize cachedPlanFor idxs q ord allowSpecial c = r
              cases r with
              | some p => simp [errorOf, hg]
              | none => simp [errorOf, hg]

/-- Positivity of the length of a string built by appending to the left. -/
theorem length_append_pos_left (a b : String) (h : 0 < a.length) :
    0 < (a ++ b).length := by
  rw [String.length_append]
  omega

/-- C9: the diagnostic renderings of a plan, a plan set and a multi-plan
scanner are total functions returning a nonempty rendering on every input:
in this model no legal input can make them fail. -/
theorem toString_total :
    (∀ p : QPlan, 0 < (planToString p).length) ∧
    (∀ s : QPS, 0 < (qpsToString s).length) ∧
    (∀ m : MultiPlanScanner, 0 < (mpsToString m).length) := by
  refine ⟨fun p => ?_, fun s => ?_, fun m => ?_⟩
  · unfold planToString
    repeat' apply length_append_pos_left
    decide
  · unfold qpsToString
    repeat' apply length_append_pos_left
    decide
  · unfold mpsToString
    repeat' apply length_append_pos_left
    decide

/-- C10: a geospatial predicate planned against a matching 2d special index
yields a plan whose utility is Helpful, never Optimal; consequently plan
enumeration's first-Optimal collapse never selects a special index. -/
theorem special_plan_never_optimal :
    (∀ (s : IndexSpec) (f : String) (q : Query) (ord : List (String × Bool)),
      s.geoField = some f → hasNearOn q f = true →
      (mkPlan s q ord).util = .helpful) ∧
    (∀ (idxs : List IndexSpec) (q : Query) (ord : List (String × Bool))
        (s : IndexSpec),
      firstOptimalSpec idxs q ord = some s → s.geoField = none) := by
  constructor
  · intro s f q ord hgeo hnear
    simp [mkPlan, hgeo, specialSuitable, hnear]
  · intro idxs q ord s hfo
    have hp := List.find?_some hfo
    rw [beq_iff_eq] at hp
    cases hgeo : s.geoField with
    | none => rfl
    | some f =>
      exfalso
      simp only [mkPlan, hgeo] at hp
      split at hp <;> simp at hp

/-- C10 witness: the theorem applied at the Special test's configuration — a
near predicate on the 2d index's field yields a Helpful plan. -/
theorem special_plan_never_optimal_witness :
    (mkPlan (geoIdx "a_2d" "a") [cl "a" .nearOp] []).util = .helpful := by
  exact special_plan_never_optimal.1 (geoIdx "a_2d" "a") "a" [cl "a" .nearOp]
    [] (by decide) (by decide)

/-- C1 witness: the equivalence applied at the Impossible test's input — the
empty in-list on the indexed field makes the plan Impossible. -/
theorem utility_impossible_iff_witness :
    utility [asc "a"] false [cl "a" (.inOp [])] [] = .impossible := by
  exact (utility_impossible_iff_empty_indexed_range.1 _ _ _ _).mpr
    ⟨asc "a", by decide, by decide⟩

/-- C2 witness: the amended equivalence applied at the SparseExistsFalse
test's input — a top-level exists false disallows the sparse plan. -/
theorem sparse_utility_disallowed_iff_witness :
    utility [asc "a"] true [cl "a" (.existsOp false)] [] = .disallowed := by
  exact (sparse_utility_disallowed_iff [asc "a"] [cl "a" (.existsOp false)]
    []).mpr ⟨by decide, by decide⟩

end QueryOptimizer
